import Mathlib

/-!
Verification development for the HomieAgent transaction-submission pipeline.

The executable kernel of the repository lives in documentation code blocks:
  * `NonceManager.getNextNonce` and `reset` (src/unnamed/part_006, lines 336-369),
  * the `useRef`-based `getNextNonce` (src/unnamed/part_006, lines 306-326 and
    src/megaeth-ai-developer-skills/privy-integration.md, lines 191-206),
  * `submitWithRetry` (src/unnamed/part_004, lines 255-266),
  * `parseSignature` / `parseSignatureEIP1559`
    (src/megaeth-ai-developer-skills/privy-integration.md, lines 101-131),
  * the signing-warmup hooks `useSigningWarmup` and the warmup effect of
    `useMegaETHTransaction` (privy-integration.md, lines 147-181 and 229-245).

All of this is single-threaded JavaScript: code between two `await`
suspension points runs atomically.  Concurrency is therefore modelled by
interleaving the atomic segments; network calls are oracles passed in as
explicit arguments (a value for a successful reply, `Except.error` for a
thrown rejection).
-/

namespace HomieAgent

/-! # Definitions -/

/-! ## Nonce sequencing

`NonceManager.getNextNonce` (src/unnamed/part_006, lines 349-358) runs, once
its network query resolves, the atomic segment

  const lastUsed = this.nonces.get(address) ?? -1;
  const nonce = Math.max(networkNonce, lastUsed + 1);
  this.nonces.set(address, nonce);
  return nonce;

with no `await` inside, so for a fixed sender the whole read-compute-write is
one atomic step.  `reserveStep` is that step; the stored entry is `none` when
the sender has no entry yet (the `?? -1` default). -/

def localNext (lastUsed : Option Int) : Int := lastUsed.getD (-1) + 1

def reserveStep (lastUsed : Option Int) (networkNonce : Int) : Int × Option Int :=
  let lu := lastUsed.getD (-1)
  let nonce := max networkNonce (lu + 1)
  (nonce, some nonce)

/-- A run of reservations for one sender: each concurrent `getNextNonce` call
contributes one atomic `reserveStep`, in the order the network replies resume
them; the list holds each call's observed `networkNonce`. -/
def reserveRun (lastUsed : Option Int) : List Int → List Int
  | [] => []
  | q :: qs => (reserveStep lastUsed q).1 :: reserveRun (reserveStep lastUsed q).2 qs

/-- `getNextNonce` from the `useRef` pattern (src/unnamed/part_006, lines
306-326; privy-integration.md, lines 193-206): fetch the pending nonce, bump
it above the last used one, record it.  Returns (nonce, new lastNonceRef). -/
def getNextNonceRef (lastNonce : Int) (networkNonce : Int) : Int × Int :=
  let nonce := if lastNonce ≥ networkNonce then lastNonce + 1 else networkNonce
  (nonce, nonce)

/-! ## The full `NonceManager` state

`NonceManager` (src/unnamed/part_006, lines 336-369) keeps two maps:
`nonces : Map<string, number>` and `locks : Map<string, Promise<void>>`.
We model the maps as association lists with JavaScript `Map` semantics
(`set` overwrites, `delete` removes, `get` yields `undefined`/`none`).
A whole `getNextNonce` call is modelled as one transition: the network
query's outcome is the oracle argument (`Except.error` when
`getTransactionCount` rejects); the lock entry the call installed at entry
is removed by the `finally` block in every case, so the net effect on
`locks` is deletion of the sender's entry. -/

def mapGet : List (String × Int) → String → Option Int
  | [], _ => none
  | (a, v) :: rest, k => if a = k then some v else mapGet rest k

def mapSet : List (String × Int) → String → Int → List (String × Int)
  | [], k, v => [(k, v)]
  | (a, w) :: rest, k, v =>
      if a = k then (k, v) :: rest else (a, w) :: mapSet rest k v

def mapDelete : List (String × Int) → String → List (String × Int)
  | [], _ => []
  | (a, w) :: rest, k => if a = k then mapDelete rest k else (a, w) :: mapDelete rest k

def lockRemove (l : List String) (k : String) : List String :=
  l.filter (fun a => a ≠ k)

structure NMState where
  nonces : List (String × Int)
  locks : List String
deriving Repr, DecidableEq

/-- One `NonceManager.getNextNonce(client, address)` call (src/unnamed/
part_006, lines 340-363), given the outcome `query` of the awaited
`client.getTransactionCount`.  On success: read `lastUsed` (default -1),
assign `max(networkNonce, lastUsed + 1)`, store it, return it; the
`finally` block releases and deletes the sender's lock.  On a thrown
query: nothing is stored, the error propagates, and the `finally` block
still deletes the lock. -/
def getNextNonce (st : NMState) (address : String) (query : Except String Int) :
    Except String Int × NMState :=
  match query with
  | Except.error e =>
      (Except.error e, { nonces := st.nonces, locks := lockRemove st.locks address })
  | Except.ok networkNonce =>
      let lastUsed := (mapGet st.nonces address).getD (-1)
      let nonce := max networkNonce (lastUsed + 1)
      (Except.ok nonce,
        { nonces := mapSet st.nonces address nonce,
          locks := lockRemove st.locks address })

/-- `NonceManager.reset(address)` (src/unnamed/part_006, lines 366-368). -/
def reset (st : NMState) (address : String) : NMState :=
  { nonces := mapDelete st.nonces address, locks := st.locks }

/-! ## Submission with retry

`submitWithRetry` (src/unnamed/part_004, lines 255-266):

  async function submitWithRetry(tx, maxRetries = 3) \x7b
    for (let i = 0; i < maxRetries; i++) \x7b
      try \x7b
        const blockhash = await client.getLatestBlockhash();
        tx.blockhash = blockhash;
        return await client.sendTransaction(tx);
      \x7d catch (e) \x7b
        if (!e.message.includes('blockhash')) throw e;
      \x7d
    \x7d
    throw new Error('Transaction expired');
  \x7d

Each loop iteration fetches the latest blockhash, stamps it on the
transaction, and submits; only errors whose message contains the substring
"blockhash" keep the loop going.  The two network calls of iteration `i`
are the oracle value `oracle i`: the fetched blockhash and the outcome of
`sendTransaction`.  Besides the JS return value we also record the list of
transaction records actually submitted, in order. -/

def startsWithL : List Char → List Char → Bool
  | _, [] => true
  | [], _ :: _ => false
  | h :: hs, p :: ps => h == p && startsWithL hs ps

def containsSub : List Char → List Char → Bool
  | [], pat => pat.isEmpty
  | h :: rest, pat => startsWithL (h :: rest) pat || containsSub rest pat

/-- JavaScript `msg.includes(pat)`. -/
def strIncludes (msg pat : String) : Bool := containsSub msg.toList pat.toList

inductive SendOutcome where
  | accepted (receipt : Nat)
  | failed (message : String)
deriving Repr, DecidableEq

/-- A transaction as `submitWithRetry` sees it: a mutable `blockhash` field
plus everything else (payload, any signature bytes), which the function
never touches. -/
structure Tx where
  payload : String
  blockhash : String
deriving Repr, DecidableEq

/-- Result of the loop body, iterating `fuel = maxRetries - i` more times:
the value returned/thrown, and the submitted transaction records. -/
def submitLoop (tx : Tx) (oracle : Nat → String × SendOutcome) :
    Nat → Nat → Except String Nat × List Tx
  | 0, _ => (Except.error "Transaction expired", [])
  | fuel + 1, i =>
      let bh := (oracle i).1
      let tx1 : Tx := { payload := tx.payload, blockhash := bh }
      match (oracle i).2 with
      | SendOutcome.accepted r => (Except.ok r, [tx1])
      | SendOutcome.failed msg =>
          if strIncludes msg "blockhash" then
            let rest := submitLoop tx1 oracle fuel (i + 1)
            (rest.1, tx1 :: rest.2)
          else
            (Except.error msg, [tx1])

def submitWithRetry (tx : Tx) (oracle : Nat → String × SendOutcome)
    (maxRetries : Nat) : Except String Nat × List Tx :=
  submitLoop tx oracle maxRetries 0

/-- The JS default `maxRetries = 3`. -/
def submitWithRetryDefault (tx : Tx) (oracle : Nat → String × SendOutcome) :
    Except String Nat × List Tx :=
  submitWithRetry tx oracle 3

/-! ## Signature parsing

`parseSignature` (privy-integration.md, lines 101-117) slices the 65-byte
compact signature (as a hex string: chars 2..66, 66..130, 130..132), i.e.
bytes 0..31 into `r`, bytes 32..63 into `s`, and byte 64 as the recovery
byte; the recovery byte is reduced by 27 when it is at least 27, and
`v = chainId * 2 + 35 + recoveryBit`.  We model the signature at the byte
level as a list of byte values. -/

def recoveryByteOf (sig : List Nat) : Nat := sig.getD 64 0

def normalizeRecovery (b : Nat) : Nat := if b ≥ 27 then b - 27 else b

structure ParsedSig where
  r : List Nat
  s : List Nat
  v : Nat
deriving Repr, DecidableEq

def parseSignature (sig : List Nat) (chainId : Nat) : ParsedSig :=
  let r := sig.take 32
  let s := (sig.drop 32).take 32
  let recoveryBit := normalizeRecovery (recoveryByteOf sig)
  { r := r, s := s, v := chainId * 2 + 35 + recoveryBit }

/-- `parseSignatureEIP1559` (privy-integration.md, lines 120-131): same
slicing, the normalized recovery byte is returned directly as `yParity`. -/
def parseSignatureEIP1559 (sig : List Nat) : List Nat × List Nat × Nat :=
  (sig.take 32, (sig.drop 32).take 32, normalizeRecovery (recoveryByteOf sig))

/-! ## Signing warmup

`useSigningWarmup.warmup` (privy-integration.md, lines 154-177) issues the
dummy `secp256k1_sign`; on a throw it waits 500ms and issues it exactly once
more, without a surrounding try, so a second failure propagates out of
`warmup`'s promise.  The two attempt outcomes are the oracle arguments; we
also report how many underlying signing calls were issued and the backoff
waited before the retry. -/

structure WarmupResult where
  outcome : Except String Unit
  signCalls : Nat
  backoffMs : Nat
deriving Repr

def warmup (o1 o2 : Except String Unit) : WarmupResult :=
  match o1 with
  | Except.ok _ => { outcome := Except.ok (), signCalls := 1, backoffMs := 0 }
  | Except.error _ =>
      match o2 with
      | Except.ok _ => { outcome := Except.ok (), signCalls := 2, backoffMs := 500 }
      | Except.error e => { outcome := Except.error e, signCalls := 2, backoffMs := 500 }

/-- The process-wide warm flag: `isWarmedUp.current` in
`useMegaETHTransaction` (privy-integration.md, lines 226-243) is set to
`true` only after a warmup signing call succeeds; any failure leaves it
`false` (Cold). -/
def warmedAfter (res : WarmupResult) : Bool :=
  match res.outcome with
  | Except.ok _ => true
  | Except.error _ => false

/-! ## Warmup deduplication

The warmup effect of `useMegaETHTransaction` (privy-integration.md, lines
229-245) guards with `if (!wallet || isWarmedUp.current) return;` and sets
`isWarmedUp.current = true` only after the dummy signing call resolves.
Each invocation of the effect that passes the guard issues its own
underlying warmup signing call; the guard reads the completion flag, not an
in-flight marker.  `useSigningWarmup` (lines 147-181) has no guard at all.
Events: `start` is one `ensureWarm` invocation, `complete` is one in-flight
warmup finishing successfully. -/

inductive WarmEvent where
  | start
  | complete
deriving Repr, DecidableEq

structure WarmState where
  warmed : Bool
  inFlight : Nat
  signCalls : Nat
deriving Repr, DecidableEq

def warmStep (st : WarmState) : WarmEvent → WarmState
  | WarmEvent.start =>
      if st.warmed then st
      else { warmed := st.warmed, inFlight := st.inFlight + 1,
             signCalls := st.signCalls + 1 }
  | WarmEvent.complete =>
      if st.inFlight > 0 then
        { warmed := true, inFlight := st.inFlight - 1, signCalls := st.signCalls }
      else st

def warmRun (st : WarmState) (evs : List WarmEvent) : WarmState :=
  evs.foldl warmStep st

def warmInit : WarmState := { warmed := false, inFlight := 0, signCalls := 0 }

/-! ## Concrete inputs used by witnesses and counterexamples -/

def txEx : Tx := { payload := "signed-bytes", blockhash := "bh0" }

/-- Every attempt fails at the transport level (the message does not
mention a blockhash). -/
def oracleTransport : Nat → String × SendOutcome :=
  fun _ => ("bh1", SendOutcome.failed "connection reset")

/-- First attempt hits a blockhash-expiry rejection; the freshly fetched
blockhash of the retry is the same string, and the retry is accepted. -/
def oracleSameBh : Nat → String × SendOutcome :=
  fun i => if i = 0 then ("bh1", SendOutcome.failed "blockhash not found")
           else ("bh1", SendOutcome.accepted 42)

/-- Every attempt fails with a blockhash-expiry rejection. -/
def oracleAllBh : Nat → String × SendOutcome :=
  fun _ => ("bh1", SendOutcome.failed "blockhash not found")

def sigEx : List Nat := List.replicate 32 7 ++ List.replicate 32 9 ++ [28]

/-! # Theorems -/

/-! ## Lemmas about the reserve step -/

theorem reserveStep_fst (lastUsed : Option Int) (q : Int) :
    (reserveStep lastUsed q).1 = max q (localNext lastUsed) := rfl

theorem reserveStep_snd (lastUsed : Option Int) (q : Int) :
    (reserveStep lastUsed q).2 = some (reserveStep lastUsed q).1 := rfl

theorem reserveStep_lt (lastUsed : Int) (q : Int) :
    lastUsed < (reserveStep (some lastUsed) q).1 := by
  simp only [reserveStep, Option.getD_some, lt_max_iff]
  right; omega

/-- Every nonce handed out by a run started from stored value `n` exceeds `n`. -/
theorem reserveRun_gt (qs : List Int) (n : Int) :
    ∀ x ∈ reserveRun (some n) qs, n < x := by
  induction qs generalizing n with
  | nil => simp [reserveRun]
  | cons q qs ih =>
    intro x hx
    rw [reserveRun] at hx
    rcases List.mem_cons.1 hx with h | h
    · subst h; exact reserveStep_lt n q
    · rw [reserveStep_snd] at h
      exact lt_trans (reserveStep_lt n q) (ih _ _ h)

theorem reserveRun_pairwise (lastUsed : Option Int) (qs : List Int) :
    List.Pairwise (fun a b => a < b) (reserveRun lastUsed qs) := by
  induction qs generalizing lastUsed with
  | nil => exact List.Pairwise.nil
  | cons q qs ih =>
    rw [reserveRun, reserveStep_snd]
    exact List.Pairwise.cons (reserveRun_gt qs _) (ih _)

/-- An assigned nonce is either the next local value (contiguous) or the
network-reported value itself (so any gap comes from the network). -/
theorem reserveStep_gap_source (lastUsed : Option Int) (q : Int) :
    (reserveStep lastUsed q).1 = localNext lastUsed ∨ (reserveStep lastUsed q).1 = q := by
  rw [reserveStep_fst]
  rcases max_cases q (localNext lastUsed) with ⟨h, _⟩ | ⟨h, _⟩
  · right; exact h
  · left; exact h

/-! ## Lemmas about the stateful `NonceManager` -/

theorem getNextNonce_error (st : NMState) (address : String) (e : String) :
    getNextNonce st address (Except.error e) =
      (Except.error e, { nonces := st.nonces, locks := lockRemove st.locks address }) := rfl

theorem lockRemove_not_mem (l : List String) (k : String) : k ∉ lockRemove l k := by
  intro h
  have := List.of_mem_filter h
  simp at this

/-- The successful branch of the stateful `getNextNonce` is exactly
`reserveStep` applied at the sender's stored entry. -/
theorem getNextNonce_ok_fst (st : NMState) (address : String) (q : Int) :
    (getNextNonce st address (Except.ok q)).1 =
      Except.ok (reserveStep (mapGet st.nonces address) q).1 := rfl

/-! ## Lemmas about the submission loop -/

theorem submitLoop_length_le (oracle : Nat → String × SendOutcome) :
    ∀ (fuel : Nat) (tx : Tx) (i : Nat), (submitLoop tx oracle fuel i).2.length ≤ fuel := by
  intro fuel
  induction fuel with
  | zero => intro tx i; simp [submitLoop]
  | succ fuel ih =>
    intro tx i
    rw [submitLoop]
    rcases (oracle i).2 with r | msg
    · simp
    · by_cases hb : strIncludes msg "blockhash" = true
      · simpa [hb] using ih _ (i + 1)
      · simp [hb]

/-- Any attempt that was followed by a further attempt (i.e. that got
retried) failed with a message containing "blockhash". -/
theorem submitLoop_retry_only_blockhash (oracle : Nat → String × SendOutcome) :
    ∀ (fuel : Nat) (tx : Tx) (i j : Nat),
      j + 1 < (submitLoop tx oracle fuel i).2.length →
      ∃ msg, (oracle (i + j)).2 = SendOutcome.failed msg ∧
        strIncludes msg "blockhash" = true := by
  intro fuel
  induction fuel with
  | zero => intro tx i j h; simp [submitLoop] at h
  | succ fuel ih =>
    intro tx i j h
    rw [submitLoop] at h
    rcases ho : (oracle i).2 with r | msg
    · rw [ho] at h; simp at h
    · rw [ho] at h
      dsimp only at h
      by_cases hb : strIncludes msg "blockhash" = true
      · rw [if_pos hb] at h
        simp only [List.length_cons] at h
        rcases j with _ | k
        · exact ⟨msg, by simpa using ho, hb⟩
        · have hk : k + 1 < (submitLoop
              { payload := tx.payload, blockhash := (oracle i).1 }
              oracle fuel (i + 1)).2.length := by omega
          have := ih _ (i + 1) k hk
          have harith : i + 1 + k = i + (k + 1) := by omega
          rwa [harith] at this
      · rw [if_neg hb] at h; simp at h

/-- If every attempt up to the bound fails with a blockhash message, the
loop exhausts and throws "Transaction expired". -/
theorem submitLoop_exhausted (oracle : Nat → String × SendOutcome) :
    ∀ (fuel : Nat) (tx : Tx) (i : Nat),
      (∀ j, j < fuel → ∃ msg, (oracle (i + j)).2 = SendOutcome.failed msg ∧
        strIncludes msg "blockhash" = true) →
      (submitLoop tx oracle fuel i).1 = Except.error "Transaction expired" := by
  intro fuel
  induction fuel with
  | zero => intro tx i _; rfl
  | succ fuel ih =>
    intro tx i h
    obtain ⟨msg, hm, hb⟩ := h 0 (Nat.succ_pos fuel)
    rw [Nat.add_zero] at hm
    rw [submitLoop, hm]
    dsimp only
    rw [if_pos hb]
    exact ih _ (i + 1) (fun j hj => by
      have harith : i + 1 + j = i + (j + 1) := by omega
      rw [harith]
      exact h (j + 1) (by omega))

/-- Every submitted attempt carries the blockhash freshly fetched for that
very attempt, and an untouched payload (in particular, no re-signing). -/
theorem submitLoop_attempt_fresh (oracle : Nat → String × SendOutcome) :
    ∀ (fuel : Nat) (tx : Tx) (i j : Nat) (d : Tx),
      j < (submitLoop tx oracle fuel i).2.length →
      ((submitLoop tx oracle fuel i).2.getD j d).blockhash = (oracle (i + j)).1 ∧
      ((submitLoop tx oracle fuel i).2.getD j d).payload = tx.payload := by
  intro fuel
  induction fuel with
  | zero => intro tx i j d h; simp [submitLoop] at h
  | succ fuel ih =>
    intro tx i j d h
    rw [submitLoop] at h ⊢
    rcases ho : (oracle i).2 with r | msg
    · rw [ho] at h
      dsimp only at h ⊢
      simp only [List.length_singleton] at h
      have hj : j = 0 := by omega
      subst hj
      exact ⟨rfl, rfl⟩
    · rw [ho] at h
      dsimp only at h ⊢
      by_cases hb : strIncludes msg "blockhash" = true
      · rw [if_pos hb] at h ⊢
        rcases j with _ | k
        · exact ⟨rfl, rfl⟩
        · simp only [List.length_cons] at h
          have hk : k < (submitLoop
              { payload := tx.payload, blockhash := (oracle i).1 }
              oracle fuel (i + 1)).2.length := by omega
          have := ih _ (i + 1) k d hk
          have harith : i + 1 + k = i + (k + 1) := by omega
          rw [harith] at this
          simpa using this
      · rw [if_neg hb] at h ⊢
        simp only [List.length_singleton] at h
        have hj : j = 0 := by omega
        subst hj
        exact ⟨rfl, rfl⟩

/-! ## Lemmas about signature slicing -/

theorem drop_last_singleton : ∀ (n : Nat) (l : List Nat), l.length = n + 1 →
    l.drop n = [l.getD n 0] := by
  intro n
  induction n with
  | zero =>
    intro l hl
    rcases l with _ | ⟨a, rest⟩
    · simp at hl
    · have hr : rest = [] := by
        simp only [List.length_cons, Nat.add_right_cancel_iff] at hl
        exact List.length_eq_zero.1 hl
      subst hr; rfl
  | succ n ih =>
    intro l hl
    rcases l with _ | ⟨a, rest⟩
    · simp at hl
    · have hr : rest.length = n + 1 := by simpa using hl
      have := ih rest hr
      simpa [List.drop_succ_cons, List.getD_cons_succ] using this

theorem sig_decompose (sig : List Nat) (h : sig.length = 65) :
    sig.take 32 ++ (sig.drop 32).take 32 ++ [sig.getD 64 0] = sig := by
  have h1 : sig.take 32 ++ (sig.drop 32).take 32 = sig.take 64 := by
    have := (List.take_add sig 32 32).symm
    norm_num at this
    exact this
  have h2 : sig.drop 64 = [sig.getD 64 0] := drop_last_singleton 64 sig (by omega)
  rw [h1, ← h2, List.take_append_drop]

/-! ## Lemmas about warmup deduplication -/

theorem warmRun_replicate_start : ∀ (n : Nat) (st : WarmState), st.warmed = false →
    (warmRun st (List.replicate n WarmEvent.start)).signCalls = st.signCalls + n := by
  intro n
  induction n with
  | zero => intro st _; simp [warmRun]
  | succ n ih =>
    intro st h
    rw [List.replicate_succ]
    have hstep : warmStep st WarmEvent.start =
        { warmed := st.warmed, inFlight := st.inFlight + 1,
          signCalls := st.signCalls + 1 } := by
      simp [warmStep, h]
    rw [warmRun, List.foldl_cons, hstep]
    have := ih { warmed := st.warmed, inFlight := st.inFlight + 1,
                 signCalls := st.signCalls + 1 } (by simpa using h)
    rw [warmRun] at this
    rw [this]
    show st.signCalls + 1 + n = st.signCalls + (n + 1)
    omega

/-! ## Claim theorems -/

/-- C1: concurrent reservations for one sender (their atomic compare-and-
increment sections execute in some serial order on the JS event loop) hand
out pairwise distinct, strictly ascending nonces; each assignment either
continues the local run contiguously (`localNext`) or jumps exactly to the
network-reported value, so the sequencer itself introduces no gap; two
reserve calls at local next 6 return 6 and 7, never the same value twice. -/
theorem claim_C1_reserve_distinct :
    (∀ (lastUsed : Option Int) (qs : List Int),
        List.Pairwise (fun a b => a < b) (reserveRun lastUsed qs))
    ∧ (∀ (lastUsed : Option Int) (q : Int),
        (reserveStep lastUsed q).1 = localNext lastUsed ∨ (reserveStep lastUsed q).1 = q)
    ∧ (∀ (lastUsed : Option Int) (q : Int) (qs : List Int),
        reserveRun lastUsed (q :: qs) =
          (reserveStep lastUsed q).1 :: reserveRun (some (reserveStep lastUsed q).1) qs)
    ∧ reserveRun (some 5) [6, 6] = [6, 7] := by
  refine ⟨reserveRun_pairwise, reserveStep_gap_source, ?_, by decide⟩
  intro lastUsed q qs
  rw [reserveRun, reserveStep_snd]

/-- C2 counterexample: sender A's stored entry is 5 and the pending-count
query throws "timeout"; getNextNonce propagates the error and produces no
sequence number, refuting the claimed fallback to the local value. -/
theorem claim_C2_counterexample :
    (getNextNonce { nonces := [("A", 5)], locks := [] } "A" (Except.error "timeout")).1 =
      Except.error "timeout"
    ∧ (getNextNonce { nonces := [("A", 5)], locks := [] } "A"
        (Except.error "timeout")).1.toOption = none := ⟨rfl, rfl⟩

/-- C2 amended: if the pending-count query fails, the reservation fails —
getNextNonce rethrows the query error with no fallback to the local value;
the stored nonces are untouched and the per-sender lock is released. -/
theorem claim_C2_amended (st : NMState) (address : String) (e : String) :
    (getNextNonce st address (Except.error e)).1 = Except.error e
    ∧ (getNextNonce st address (Except.error e)).2.nonces = st.nonces
    ∧ address ∉ (getNextNonce st address (Except.error e)).2.locks :=
  ⟨rfl, rfl, lockRemove_not_mem st.locks address⟩

/-- C3 counterexample: the first submission fails at the transport level
with "connection reset"; submitWithRetry rethrows it after a single
submission attempt — transport failures are not retried, refuting the
claimed retry on transport failure. -/
theorem claim_C3_counterexample :
    submitWithRetry txEx oracleTransport 3 =
      (Except.error "connection reset",
        [{ payload := "signed-bytes", blockhash := "bh1" }])
    ∧ (submitWithRetry txEx oracleTransport 3).2.length = 1 := ⟨rfl, rfl⟩

/-- C3 amended: submitWithRetry retries only failures whose message
contains "blockhash"; every other error (transport failures included) is
rethrown at its first occurrence without resubmission; submissions are
bounded by maxRetries (default 3), and exhausting the bound throws the
terminal "Transaction expired". -/
theorem claim_C3_amended :
    (∀ (tx : Tx) (oracle : Nat → String × SendOutcome) (m : Nat),
        (submitWithRetry tx oracle m).2.length ≤ m)
    ∧ (∀ (tx : Tx) (oracle : Nat → String × SendOutcome) (m j : Nat),
        j + 1 < (submitWithRetry tx oracle m).2.length →
        ∃ msg, (oracle j).2 = SendOutcome.failed msg ∧
          strIncludes msg "blockhash" = true)
    ∧ (∀ (tx : Tx) (oracle : Nat → String × SendOutcome) (m : Nat),
        (∀ j, j < m → ∃ msg, (oracle j).2 = SendOutcome.failed msg ∧
          strIncludes msg "blockhash" = true) →
        (submitWithRetry tx oracle m).1 = Except.error "Transaction expired")
    ∧ (∀ (tx : Tx) (oracle : Nat → String × SendOutcome),
        (submitWithRetryDefault tx oracle).2.length ≤ 3) := by
  refine ⟨?_, ?_, ?_, ?_⟩
  · intro tx oracle m
    exact submitLoop_length_le oracle m tx 0
  · intro tx oracle m j h
    have := submitLoop_retry_only_blockhash oracle m tx 0 j h
    simpa using this
  · intro tx oracle m h
    exact submitLoop_exhausted oracle m tx 0 (fun j hj => by simpa using h j hj)
  · intro tx oracle
    exact submitLoop_length_le oracle 3 tx 0

theorem claim_C3_amended_witness :
    (submitWithRetry txEx oracleAllBh 3).1 = Except.error "Transaction expired" :=
  claim_C3_amended.2.2.1 txEx oracleAllBh 3
    (fun _ _ => ⟨"blockhash not found", rfl, rfl⟩)

/-- C4: a reservation assigns max(network pending count, local next) and
advances local next to assigned + 1; a network value below local next
loses to the local value; with local next 5 (lastUsed 4) and network 5,
reserve returns 5 and next becomes 6; the useRef variant computes the same
assignment. -/
theorem claim_C4_reserve_max :
    (∀ (lastUsed : Option Int) (q : Int),
        (reserveStep lastUsed q).1 = max q (localNext lastUsed))
    ∧ (∀ (lastUsed : Option Int) (q : Int),
        localNext (reserveStep lastUsed q).2 = (reserveStep lastUsed q).1 + 1)
    ∧ (∀ (lastUsed : Option Int) (q : Int),
        q < localNext lastUsed → (reserveStep lastUsed q).1 = localNext lastUsed)
    ∧ (∀ (lu q : Int), (getNextNonceRef lu q).1 = (reserveStep (some lu) q).1)
    ∧ reserveStep (some 4) 5 = (5, some 5) ∧ localNext (some 5) = 6 := by
  refine ⟨reserveStep_fst, ?_, ?_, ?_, by decide, by decide⟩
  · intro lastUsed q
    rw [reserveStep_snd]
    rfl
  · intro lastUsed q h
    rw [reserveStep_fst]
    exact max_eq_right (le_of_lt h)
  · intro lu q
    simp only [getNextNonceRef, reserveStep, Option.getD_some]
    rcases max_cases q (lu + 1) with ⟨hm, hle⟩ | ⟨hm, hlt⟩
    · rw [hm, if_neg (by omega)]
    · rw [hm, if_pos (by omega)]

theorem claim_C4_witness :
    (3 : Int) < localNext (some 10)
    ∧ (reserveStep (some 10) 3).1 = localNext (some 10) :=
  ⟨by decide, claim_C4_reserve_max.2.2.1 (some 10) 3 (by decide)⟩

/-- C5: across two successive reservations on the same sender, whatever
pending counts the network reports, the second assigned nonce is strictly
greater than the first — reconciliation never drops below what was already
assigned locally. -/
theorem claim_C5_monotone (lastUsed : Option Int) (q1 q2 : Int) :
    (reserveStep lastUsed q1).1 < (reserveStep (reserveStep lastUsed q1).2 q2).1 := by
  rw [reserveStep_snd]
  exact reserveStep_lt _ q2

/-- C7: parseSignature splits a 65-byte signature into r = bytes 0..31,
s = bytes 32..63 and the recovery byte 64; the recovery byte is normalized
by subtracting 27 when it is at least 27, taking both valid encodings
(0/1 and 27/28) into 0/1, and v = chainId * 2 + 35 + recoveryBit; the
EIP-1559 variant returns the same r, s and the normalized parity. -/
theorem claim_C7_parse (sig : List Nat) (chainId : Nat) (h : sig.length = 65) :
    (parseSignature sig chainId).r.length = 32
    ∧ (parseSignature sig chainId).s.length = 32
    ∧ (parseSignature sig chainId).r ++ (parseSignature sig chainId).s ++
        [recoveryByteOf sig] = sig
    ∧ (parseSignature sig chainId).v =
        chainId * 2 + 35 + normalizeRecovery (recoveryByteOf sig)
    ∧ (∀ b, b = 0 ∨ b = 1 ∨ b = 27 ∨ b = 28 →
        normalizeRecovery b = 0 ∨ normalizeRecovery b = 1)
    ∧ normalizeRecovery 27 = 0 ∧ normalizeRecovery 28 = 1
    ∧ parseSignatureEIP1559 sig =
        ((parseSignature sig chainId).r, (parseSignature sig chainId).s,
          normalizeRecovery (recoveryByteOf sig)) := by
  refine ⟨?_, ?_, ?_, rfl, ?_, rfl, rfl, rfl⟩
  · simp [parseSignature, List.length_take, h]
  · simp [parseSignature, List.length_take, List.length_drop, h]
  · exact sig_decompose sig h
  · intro b hb
    rcases hb with hb | hb | hb | hb <;> subst hb <;> simp [normalizeRecovery]

theorem claim_C7_witness :
    sigEx.length = 65
    ∧ ((parseSignature sigEx 6343).r.length = 32
    ∧ (parseSignature sigEx 6343).s.length = 32
    ∧ (parseSignature sigEx 6343).r ++ (parseSignature sigEx 6343).s ++
        [recoveryByteOf sigEx] = sigEx
    ∧ (parseSignature sigEx 6343).v =
        6343 * 2 + 35 + normalizeRecovery (recoveryByteOf sigEx)
    ∧ (∀ b, b = 0 ∨ b = 1 ∨ b = 27 ∨ b = 28 →
        normalizeRecovery b = 0 ∨ normalizeRecovery b = 1)
    ∧ normalizeRecovery 27 = 0 ∧ normalizeRecovery 28 = 1
    ∧ parseSignatureEIP1559 sigEx =
        ((parseSignature sigEx 6343).r, (parseSignature sigEx 6343).s,
          normalizeRecovery (recoveryByteOf sigEx))) :=
  ⟨by decide, claim_C7_parse sigEx 6343 (by decide)⟩

/-- C8 counterexample: two ensureWarm invocations that both arrive before
any warmup completes each pass the isWarmedUp guard (it is still false),
so two underlying warmup signing calls are issued — not exactly one. -/
theorem claim_C8_counterexample :
    (warmRun warmInit [WarmEvent.start, WarmEvent.start]).signCalls = 2
    ∧ (warmRun warmInit [WarmEvent.start, WarmEvent.start]).signCalls ≠ 1 := by
  constructor <;> decide

/-- C8 amended: every ensureWarm invocation arriving before the first
warmup completes triggers its own underlying warmup signing call — N
concurrent invocations trigger N calls; only invocations arriving after a
warmup has completed are suppressed by the isWarmedUp guard. -/
theorem claim_C8_amended :
    (∀ n, (warmRun warmInit (List.replicate n WarmEvent.start)).signCalls = n)
    ∧ (∀ st : WarmState, st.warmed = true → warmStep st WarmEvent.start = st) := by
  constructor
  · intro n
    have := warmRun_replicate_start n warmInit rfl
    simpa [warmInit] using this
  · intro st h
    simp [warmStep, h]

theorem claim_C8_amended_witness :
    ({ warmed := true, inFlight := 0, signCalls := 1 } : WarmState).warmed = true
    ∧ warmStep { warmed := true, inFlight := 0, signCalls := 1 } WarmEvent.start =
        { warmed := true, inFlight := 0, signCalls := 1 } :=
  ⟨rfl, claim_C8_amended.2 { warmed := true, inFlight := 0, signCalls := 1 } rfl⟩

/-- C9: when the first warmup signing attempt fails, warmup waits the
500ms backoff and retries exactly once (two signing calls in total, also
when the retry succeeds); if the retry also fails, the failure is surfaced
as warmup's outcome (the retry's error, not swallowed) and the warm flag
stays false — the session ends Cold. -/
theorem claim_C9_warmup_retry (e1 e2 : String) :
    (warmup (Except.error e1) (Except.ok ())).outcome = Except.ok ()
    ∧ (warmup (Except.error e1) (Except.ok ())).signCalls = 2
    ∧ (warmup (Except.error e1) (Except.error e2)).signCalls = 2
    ∧ (warmup (Except.error e1) (Except.error e2)).backoffMs = 500
    ∧ (warmup (Except.error e1) (Except.error e2)).outcome = Except.error e2
    ∧ warmedAfter (warmup (Except.error e1) (Except.error e2)) = false :=
  ⟨rfl, rfl, rfl, rfl, rfl, rfl⟩

/-- C10: when the pending-nonce query inside getNextNonce throws, the
finally block still deletes the sender's lock entry (later reservations
for that sender are not blocked) and the stored nonce map is left exactly
as it was — a failed reservation does not corrupt the sequencer state. -/
theorem claim_C10_lock_released (st : NMState) (address : String) (e : String) :
    (getNextNonce st address (Except.error e)).2.nonces = st.nonces
    ∧ (getNextNonce st address (Except.error e)).2.locks = lockRemove st.locks address
    ∧ address ∉ (getNextNonce st address (Except.error e)).2.locks
    ∧ mapGet (getNextNonce st address (Except.error e)).2.nonces address =
        mapGet st.nonces address :=
  ⟨rfl, rfl, lockRemove_not_mem st.locks address, rfl⟩

/-- C6 counterexample: the first submission is rejected with "blockhash
not found"; the retry fetches the latest blockhash and receives the same
value "bh1", so the resubmitted transaction carries an identical block
reference and identical non-blockhash bytes — refuting both the
"different block reference" and the "signature bytes differ" parts. -/
theorem claim_C6_counterexample :
    (submitWithRetry txEx oracleSameBh 3).2 =
      [{ payload := "signed-bytes", blockhash := "bh1" },
        { payload := "signed-bytes", blockhash := "bh1" }]
    ∧ (submitWithRetry txEx oracleSameBh 3).1 = Except.ok 42 := ⟨rfl, rfl⟩

/-- C6 amended: after a blockhash-expiry rejection, the transaction is
resubmitted with the block reference freshly fetched for that attempt,
but the code neither guarantees the fresh value differs from the previous
one nor re-signs: every field other than blockhash is untouched. -/
theorem claim_C6_amended (tx : Tx) (oracle : Nat → String × SendOutcome)
    (m j : Nat) (d : Tx) (h : j < (submitWithRetry tx oracle m).2.length) :
    ((submitWithRetry tx oracle m).2.getD j d).blockhash = (oracle j).1
    ∧ ((submitWithRetry tx oracle m).2.getD j d).payload = tx.payload := by
  have := submitLoop_attempt_fresh oracle m tx 0 j d h
  simpa using this

theorem claim_C6_amended_witness :
    1 < (submitWithRetry txEx oracleSameBh 3).2.length
    ∧ (((submitWithRetry txEx oracleSameBh 3).2.getD 1 txEx).blockhash =
        (oracleSameBh 1).1
    ∧ ((submitWithRetry txEx oracleSameBh 3).2.getD 1 txEx).payload = txEx.payload) :=
  ⟨by decide, claim_C6_amended txEx oracleSameBh 3 1 txEx (by decide)⟩

end HomieAgent
